import Mathlib

/-!
Shallow embedding of `gather_metrics` from `webrtc-figure.py`.

Numeric values and timestamps are modelled over `ℚ` (Python floats /
`datetime` microsecond arithmetic are modelled as exact rational
arithmetic).  Printed diagnostics are collected in a log list; an
uncaught Python exception is modelled as `Except.error`.
-/

namespace WebRTC

/-- JSON values, as produced by `json.loads`. -/
inductive Json where
  | null
  | bool (b : Bool)
  | num (q : ℚ)
  | str (s : String)
  | arr (xs : List Json)
  | obj (kvs : List (String × Json))

/-- `dict.get`: look a key up in an object's key/value list. -/
def Json.lookup : List (String × Json) → String → Option Json
  | [], _ => none
  | (k, v) :: rest, key => if k = key then some v else Json.lookup rest key

/-- Does the character list `hay` start with `needle`? -/
def leadsWith : List Char → List Char → Bool
  | [], _ => true
  | _ :: _, [] => false
  | a :: as, b :: bs => a = b && leadsWith as bs

/-- Does `needle` occur as a contiguous sublist of `hay`?  Models Python
`needle in hay` on strings. -/
def occursIn (needle : List Char) : List Char → Bool
  | [] => needle.isEmpty
  | c :: t => leadsWith needle (c :: t) || occursIn needle t

/-- Python `needle in hay` for strings. -/
def strIn (needle hay : String) : Bool := occursIn needle.data hay.data

/-- ASCII lowercasing of one character (the only case this program's metric
names exercise). -/
def lowerChar (c : Char) : Char :=
  if 'A' ≤ c ∧ c ≤ 'Z' then Char.ofNat (c.toNat + 32) else c

/-- Python `s.lower()` (ASCII). -/
def pyLower (s : String) : String := String.mk (s.data.map lowerChar)

/-- Python `s.strip()`: remove surrounding whitespace. -/
def pyTrim (s : String) : String :=
  String.mk (((s.data.dropWhile Char.isWhitespace).reverse.dropWhile
    Char.isWhitespace).reverse)

/-- Split a character list at every occurrence of `sep`. -/
def splitCharsOn (sep : Char) : List Char → List (List Char)
  | [] => [[]]
  | c :: cs =>
    let rest := splitCharsOn sep cs
    if c = sep then [] :: rest
    else
      match rest with
      | [] => [[c]]
      | piece :: more => (c :: piece) :: more

/-- Python `s.split(",")` (non-empty single-character separator). -/
def pySplitComma (s : String) : List String :=
  (splitCharsOn ',' s.data).map String.mk

/-- A Python `datetime`: microseconds on a common linear scale (CPython's
`datetime` resolution), plus whether the object is offset-aware (`tzinfo`
present).  For aware datetimes `micros` is the UTC instant; for naive ones it
is the literal local reading. -/
structure PyDateTime where
  micros : ℤ
  aware : Bool
  deriving DecidableEq, Repr

/-- The instant on the seconds scale, as an exact rational. -/
def PyDateTime.secs (d : PyDateTime) : ℚ := (d.micros : ℚ) / 1000000

/-- Take a maximal run of leading decimal digits. -/
def takeDigits : List Char → List Char × List Char
  | [] => ([], [])
  | c :: cs =>
    if c.isDigit then
      let (d, r) := takeDigits cs
      (c :: d, r)
    else ([], c :: cs)

/-- Numeric value of a digit run. -/
def digitsVal (ds : List Char) : ℕ :=
  ds.foldl (fun a c => 10 * a + (c.toNat - 48)) 0

/-- Read exactly two digits. -/
def read2 : List Char → Option (ℕ × List Char)
  | a :: b :: cs =>
    if a.isDigit && b.isDigit then some (digitsVal [a, b], cs) else none
  | _ => none

/-- Read exactly four digits. -/
def read4 : List Char → Option (ℕ × List Char)
  | a :: b :: c :: d :: cs =>
    if a.isDigit && b.isDigit && c.isDigit && d.isDigit then
      some (digitsVal [a, b, c, d], cs)
    else none
  | _ => none

/-- Expect a specific character. -/
def expectChar (c : Char) : List Char → Option (List Char)
  | x :: cs => if x = c then some cs else none
  | [] => none

/-- Gregorian leap year. -/
def isLeap (y : ℕ) : Bool := y % 4 = 0 && (y % 100 ≠ 0 || y % 400 = 0)

/-- Days in a month of a given year. -/
def daysInMonth (y m : ℕ) : ℕ :=
  if m = 2 then (if isLeap y then 29 else 28)
  else if m = 4 ∨ m = 6 ∨ m = 9 ∨ m = 11 then 30
  else 31

/-- Day count of a civil date on a linear scale (valid for `1 ≤ y`,
`1 ≤ m ≤ 12`); only differences of such day counts matter. -/
def civilDays (y m d : ℕ) : ℕ :=
  let yy := if m ≤ 2 then y - 1 else y
  let mp := if m ≤ 2 then m + 9 else m - 3
  let doy := (153 * mp + 2) / 5 + d - 1
  yy * 365 + yy / 4 + yy / 400 + doy - yy / 100

/-- Microseconds encoded by a fractional-second digit run (truncated to
microsecond resolution, as CPython does). -/
def fracMicros (fd : List Char) : ℕ :=
  digitsVal (fd.take 6) * 10 ^ (6 - min fd.length 6)

/-- Parse the time-of-day part `HH[:MM[:SS[.frac]]]`, returning microseconds
within the day and the rest of the input. -/
def parseClock (cs : List Char) : Option (ℕ × List Char) := do
  let (h, cs) ← read2 cs
  if h ≥ 24 then none else
  match cs with
  | ':' :: cs2 => do
    let (mi, cs3) ← read2 cs2
    if mi ≥ 60 then none else
    match cs3 with
    | ':' :: cs4 => do
      let (s, cs5) ← read2 cs4
      if s ≥ 60 then none else
      match cs5 with
      | '.' :: cs6 =>
        let (fd, cs7) := takeDigits cs6
        if fd.isEmpty then none
        else some ((h * 3600 + mi * 60 + s) * 1000000 + fracMicros fd, cs7)
      | _ => some ((h * 3600 + mi * 60 + s) * 1000000, cs5)
    | _ => some ((h * 3600 + mi * 60) * 1000000, cs3)
  | _ => some (h * 3600 * 1000000, cs)

/-- Parse a UTC-offset suffix `±HH:MM` as microseconds; `none` when absent,
failure when malformed. -/
def parseOffset : List Char → Option (Option ℤ)
  | [] => some none
  | c :: cs =>
    if c = '+' ∨ c = '-' then do
      let (oh, cs1) ← read2 cs
      let cs2 ← expectChar ':' cs1
      let (om, cs3) ← read2 cs2
      if oh ≥ 24 ∨ om ≥ 60 ∨ ¬cs3.isEmpty then none
      else some (some ((if c = '-' then -1 else 1) *
        ((oh * 3600 + om * 60 : ℕ) : ℤ) * 1000000))
    else none

/-- Model of `datetime.fromisoformat`: `YYYY-MM-DD`, optionally a separator
character and a clock time, optionally a `±HH:MM` offset (making the result
aware).  Returns `none` on any malformed input (Python raises `ValueError`). -/
def fromisoformat (s : String) : Option PyDateTime := do
  let cs := s.data
  let (y, cs) ← read4 cs
  let cs ← expectChar '-' cs
  let (mo, cs) ← read2 cs
  let cs ← expectChar '-' cs
  let (d, cs) ← read2 cs
  if y = 0 ∨ mo = 0 ∨ mo > 12 ∨ d = 0 ∨ d > daysInMonth y mo then none else
  let base : ℤ := (civilDays y mo d : ℤ) * 86400000000
  match cs with
  | [] => some ⟨base, false⟩
  | _sep :: rest => do
    let (t, rest2) ← parseClock rest
    let off ← parseOffset rest2
    match off with
    | none => some ⟨base + (t : ℤ), false⟩
    | some o => some ⟨base + (t : ℤ) - o, true⟩

/-- Replace every `'Z'` in a character list by `"+00:00"`. -/
def replaceZChars : List Char → List Char
  | [] => []
  | c :: cs =>
    if c = 'Z' then '+' :: '0' :: '0' :: ':' :: '0' :: '0' :: replaceZChars cs
    else c :: replaceZChars cs

/-- Python `s.replace("Z", "+00:00")`. -/
def replaceZ (s : String) : String := String.mk (replaceZChars s.data)

/-- The timestamp conversion done inside the `try` block: a non-string field
(including an absent one, i.e. `None`) raises `AttributeError` and a malformed
string raises `ValueError`; both are caught by the handler, so both are
modelled as `none`. -/
def fromJsonTime : Json → Option PyDateTime
  | .str s => fromisoformat (replaceZ s)
  | _ => none

/-- Parse an optional sign, Python-style. -/
def readSign : List Char → Bool × List Char
  | '+' :: cs => (false, cs)
  | '-' :: cs => (true, cs)
  | cs => (false, cs)

/-- Model of Python `float(x)` restricted to finite decimal literals:
optional surrounding whitespace, optional sign, `digits[.digits]` or
`.digits`, optional decimal exponent.  (`inf`/`nan` literals and digit-group
underscores are outside the rational model and not used by this program's
inputs.)  Returns `none` where Python raises `ValueError`. -/
def pyFloat (s : String) : Option ℚ :=
  let cs := (pyTrim s).data
  let (neg, cs) := readSign cs
  let (ip, cs) := takeDigits cs
  let (hasDot, fp, cs) :=
    match cs with
    | '.' :: rest =>
      let (fp, r) := takeDigits rest
      (true, fp, r)
    | _ => (false, ([] : List Char), cs)
  if ip.isEmpty ∧ fp.isEmpty then none
  else
    let mant : ℚ := (digitsVal ip : ℚ) +
      (if hasDot then (digitsVal fp : ℚ) / ((10 : ℚ) ^ fp.length) else 0)
    let signed : ℚ := if neg then -mant else mant
    match cs with
    | [] => some signed
    | e :: rest =>
      if e = 'e' ∨ e = 'E' then
        let (eneg, rest2) := readSign rest
        let (eds, rest3) := takeDigits rest2
        if eds.isEmpty ∨ ¬rest3.isEmpty then none
        else if eneg then some (signed / ((10 : ℚ) ^ digitsVal eds))
        else some (signed * ((10 : ℚ) ^ digitsVal eds))
      else none

/-- Python `raw_values.strip("[]").strip()`: remove leading and trailing
bracket characters, then surrounding whitespace. -/
def stripBrackets (s : String) : String :=
  let isBr : Char → Bool := fun c => c = '[' || c = ']'
  pyTrim (String.mk (((s.data.dropWhile isBr).reverse.dropWhile isBr).reverse))

/-- `[float(x) for x in values_str.split(",")]`: `none` models the
`ValueError` raised by the first unparseable piece. -/
def parseValues (s : String) : Option (List ℚ) :=
  (pySplitComma s).mapM pyFloat

/-- A Style Map entry's display tuple `(title, color, unit)`. -/
structure Style where
  title : String
  color : String
  unit : String
  deriving DecidableEq, Repr

/-- The record appended to `metrics` for one accepted entry. -/
structure MetricRecord where
  time_axis : List ℚ
  values : List ℚ
  title : String
  y_label : String
  color : String
  average : ℚ
  deriving DecidableEq, Repr

/-- A diagnostic printed by `gather_metrics` for a skipped entry. -/
inductive LogEvent where
  | timeParseError (name : String)
  | valueParseError (name : String)
  deriving DecidableEq, Repr

/-- An uncaught Python exception escaping `gather_metrics`. -/
inductive PyError where
  | attributeError
  | typeError
  deriving DecidableEq, Repr

/-- Python truthiness of a JSON value (`if stats_type:`). -/
def jsonTruthy : Json → Bool
  | .null => false
  | .bool b => b
  | .num q => q ≠ 0
  | .str s => s ≠ ""
  | .arr xs => ¬xs.isEmpty
  | .obj kvs => ¬kvs.isEmpty

/-- Python `str()` rendering used in the f-string for the title.  Faithful for
strings (the only case this program's inputs exercise); other JSON values are
rendered by an approximation of `str()`. -/
def pyStr : Json → String
  | .str s => s
  | .bool true => "True"
  | .bool false => "False"
  | .null => "None"
  | .num q => toString q
  | .arr _ => "[...]"
  | .obj _ => "\x7b...\x7d"

/-- The loop of lines 26-29: first Style Map key contained in the lowercased
metric name. -/
def findMatch (name : String) (styleMap : List (String × Style)) :
    Option (String × Style) :=
  styleMap.find? (fun e => strIn e.1 (pyLower name))

/-- Lines 54-58: `start_dt + total_duration * (i / (len(values) - 1))` for
each `i` in `range(len(values))`, as exact rational arithmetic on the
seconds scale. -/
def mkTimeAxis (s e : ℚ) (n : ℕ) : List ℚ :=
  (List.range n).map (fun i : ℕ => s + (e - s) * ((i : ℚ) / ((n : ℚ) - 1)))

/-- Lines 60-68: the plot title. -/
def mkTitle (name : String) (sty : Style) (kvs : List (String × Json)) :
    String :=
  if strIn "roundtriptime" (pyLower name) then
    let st := (Json.lookup kvs "statsType").getD (.str "")
    if jsonTruthy st then sty.title ++ " (" ++ pyStr st ++ ")" else sty.title
  else sty.title

/-- Lines 54-78: the dictionary appended to `metrics` for an accepted
entry. -/
def buildRecord (name : String) (sty : Style) (kvs : List (String × Json))
    (sdt edt : PyDateTime) (vals : List ℚ) : MetricRecord :=
  { time_axis := mkTimeAxis sdt.secs edt.secs vals.length
    values := vals
    title := mkTitle name sty kvs
    y_label := sty.unit
    color := sty.color
    average := vals.sum / (vals.length : ℚ) }

/-- One iteration of the loop body of `gather_metrics` (lines 24-78) for the
entry `(name, info)`: either an uncaught exception, or a possible record
together with the diagnostics printed while handling the entry. -/
def processEntry (styleMap : List (String × Style)) (name : String)
    (info : Json) : Except PyError (Option MetricRecord × List LogEvent) :=
  match findMatch name styleMap with
  | none => .ok (none, [])
  | some (key, sty) =>
    -- `if not match_key: continue`: an empty-string key is falsy in Python.
    if key = "" then .ok (none, []) else
    match info with
    | .obj kvs =>
      match fromJsonTime ((Json.lookup kvs "startTime").getD .null),
            fromJsonTime ((Json.lookup kvs "endTime").getD .null) with
      | some sdt, some edt =>
        match (Json.lookup kvs "values").getD (.str "[]") with
        | .str raw =>
          if stripBrackets raw = "" then .ok (none, []) else
          match parseValues (stripBrackets raw) with
          | none => .ok (none, [.valueParseError name])
          | some vals =>
            if vals.length < 2 then .ok (none, []) else
            -- `end_dt - start_dt` raises TypeError when exactly one side
            -- is offset-aware (line 54, outside any try block).
            if sdt.aware ≠ edt.aware then .error .typeError else
            .ok (some (buildRecord name sty kvs sdt edt vals), [])
        | _ => .error .attributeError
      | _, _ => .ok (none, [.timeParseError name])
    | _ => .error .attributeError

/-- Lines 20-21 and 24: unwrap a single-element top-level list, then
`data.items()`; any non-dict raises `AttributeError`. -/
def itemsOf : Json → Except PyError (List (String × Json))
  | .obj kvs => .ok kvs
  | .arr [.obj kvs] => .ok kvs
  | _ => .error .attributeError

/-- The main loop over `data.items()`, accumulating records and printed
diagnostics in order. -/
def gatherLoop (styleMap : List (String × Style)) :
    List (String × Json) → Except PyError (List MetricRecord × List LogEvent)
  | [] => .ok ([], [])
  | (name, info) :: rest =>
    match processEntry styleMap name info with
    | .error e => .error e
    | .ok (r, lg) =>
      match gatherLoop styleMap rest with
      | .error e => .error e
      | .ok (rs, lgs) => .ok (r.toList ++ rs, lg ++ lgs)

/-- `gather_metrics`, starting from the parsed JSON document. -/
def gather_metrics (doc : Json) (styleMap : List (String × Style)) :
    Except PyError (List MetricRecord × List LogEvent) :=
  match itemsOf doc with
  | .error e => .error e
  | .ok es => gatherLoop styleMap es

/-- The Style Map defined at startup (lines 148-156). -/
def startupStyleMap : List (String × Style) :=
  [("roundtriptime", ⟨"Round Trip Time", "#f39c12", "ms"⟩),
   ("jitter", ⟨"Jitter", "#c0392b", "ms"⟩),
   ("bitrate", ⟨"Bitrate (Ms)", "#8e44ad", "Kbit/s"⟩),
   ("framespersecond", ⟨"Frames Per Second", "#2980b9", "fps"⟩),
   ("framewidth", ⟨"Frame Width", "#27ae60", "pixels"⟩),
   ("frameheight", ⟨"Frame Height", "#2c3e50", "pixels"⟩),
   ("framesdecoded/s", ⟨"Frames Decoded per Second", "#27ae60", "frames/s"⟩)]

/-- The `"RTT_stat"` payload from the spec's worked example. -/
def kvsRTT : List (String × Json) :=
  [("startTime", .str "2024-01-01T00:00:00Z"),
   ("endTime", .str "2024-01-01T00:00:10Z"),
   ("values", .str "[10, 20, 30]"),
   ("statsType", .str "candidate-pair")]

/-- The spec's worked-example document, verbatim. -/
def docC4 : Json := .obj [("RTT_stat", .obj kvsRTT)]

/-- The worked-example document with a metric name that actually contains the
`roundtriptime` match key. -/
def docRTT : Json := .obj [("roundTripTime_stat", .obj kvsRTT)]

/-- The record the code produces for `docRTT` (timestamps on the seconds
scale; `63866102400` is the scale's reading of 2024-01-01T00:00:00Z). -/
def recRTT : MetricRecord :=
  { time_axis := [63866102400, 63866102405, 63866102410]
    values := [10, 20, 30]
    title := "Round Trip Time (candidate-pair)"
    y_label := "ms"
    color := "#f39c12"
    average := 20 }

/-- An entry whose declared interval runs backwards (end before start). -/
def kvsRev : List (String × Json) :=
  [("startTime", .str "2024-01-01T00:00:10Z"),
   ("endTime", .str "2024-01-01T00:00:00Z"),
   ("values", .str "[1, 2]")]

/-- Document holding only the reversed-interval entry. -/
def docRev : Json := .obj [("jitter_rev", .obj kvsRev)]

/-- The record the code produces for `docRev`: a decreasing time axis. -/
def recRev : MetricRecord :=
  { time_axis := [63866102410, 63866102400]
    values := [1, 2]
    title := "Jitter"
    y_label := "ms"
    color := "#c0392b"
    average := 3 / 2 }

/-- A JSON document whose matched entry's payload is a number, not an
object (perfectly valid JSON). -/
def docBadInfo : Json := .obj [("jitter_a", .num 5)]

/-- An entry with a malformed `values` payload. -/
def kvsBadVals : List (String × Json) :=
  [("startTime", .str "2024-01-01T00:00:00Z"),
   ("endTime", .str "2024-01-01T00:00:10Z"),
   ("values", .str "[1,2,oops]")]

/-- A well-formed entry. -/
def kvsGood : List (String × Json) :=
  [("startTime", .str "2024-01-01T00:00:00Z"),
   ("endTime", .str "2024-01-01T00:00:02Z"),
   ("values", .str "[5, 7]")]

/-- A malformed-values entry followed by a valid entry. -/
def docMixed : Json :=
  .obj [("jitter_a", .obj kvsBadVals), ("bitrate_b", .obj kvsGood)]

/-- The record the code produces for the valid entry of `docMixed`. -/
def recGood : MetricRecord :=
  { time_axis := [63866102400, 63866102402]
    values := [5, 7]
    title := "Bitrate (Ms)"
    y_label := "Kbit/s"
    color := "#8e44ad"
    average := 6 }

/-- An entry whose `values` payload is the empty list `"[]"`. -/
def kvsEmptyVals : List (String × Json) :=
  [("startTime", .str "2024-01-01T00:00:00Z"),
   ("endTime", .str "2024-01-01T00:00:10Z"),
   ("values", .str "[]")]

/-- Document holding only the empty-values entry. -/
def docEmptyVals : Json := .obj [("jitter_e", .obj kvsEmptyVals)]

/-- An entry with a single parsed value. -/
def kvsSingle : List (String × Json) :=
  [("startTime", .str "2024-01-01T00:00:00Z"),
   ("endTime", .str "2024-01-01T00:00:10Z"),
   ("values", .str "[1.0]")]

/-- Document holding only the single-value entry. -/
def docSingle : Json := .obj [("jitter_one", .obj kvsSingle)]

/-- An entry with no `startTime` field at all. -/
def kvsNoStart : List (String × Json) :=
  [("endTime", .str "2024-01-01T00:00:10Z"),
   ("values", .str "[1, 2]")]

/-- Conditions under which an entry cannot make the loop body raise an
uncaught exception: whenever the entry is matched (by a non-falsy key), its
payload is an object, its `values` field (after the `"[]"` default) is a
string, and its two timestamps, when both parse, agree on offset-awareness. -/
def benignEntry (sm : List (String × Style)) (n : String) (i : Json) : Prop :=
  ∀ key sty, findMatch n sm = some (key, sty) → key ≠ "" →
    ∃ kvs, i = .obj kvs ∧
      (∃ raw, (Json.lookup kvs "values").getD (.str "[]") = .str raw) ∧
      (∀ sdt edt,
        fromJsonTime ((Json.lookup kvs "startTime").getD .null) = some sdt →
        fromJsonTime ((Json.lookup kvs "endTime").getD .null) = some edt →
        sdt.aware = edt.aware)

/-! ### Helper lemmas -/

lemma mkTimeAxis_length (s e : ℚ) (n : ℕ) : (mkTimeAxis s e n).length = n := by
  simp only [mkTimeAxis, List.length_map, List.length_range]

lemma mkTimeAxis_getElem (s e : ℚ) (n i : ℕ)
    (hi : i < (mkTimeAxis s e n).length) :
    (mkTimeAxis s e n)[i] = s + (e - s) * ((i : ℚ) / ((n : ℚ) - 1)) := by
  simp only [mkTimeAxis] at hi ⊢
  rw [List.getElem_map, List.getElem_range]

lemma mkTimeAxis_head (s e : ℚ) (n : ℕ) (hn : 1 ≤ n) :
    (mkTimeAxis s e n).head? = some s := by
  cases n with
  | zero => omega
  | succ m =>
    simp only [mkTimeAxis, List.range_succ_eq_map, List.map_cons,
      List.head?_cons, Nat.cast_zero, zero_div, mul_zero, add_zero]

lemma mkTimeAxis_last (s e : ℚ) (n : ℕ) (hn : 2 ≤ n) :
    (mkTimeAxis s e n).getLast? = some e := by
  have hlen : (mkTimeAxis s e n).length = n := mkTimeAxis_length s e n
  rw [List.getLast?_eq_getElem?, hlen]
  have hlt : n - 1 < n := by omega
  rw [List.getElem?_eq_getElem (by rw [hlen]; exact hlt)]
  rw [mkTimeAxis_getElem]
  have hc : ((n - 1 : ℕ) : ℚ) = (n : ℚ) - 1 := by
    have : 1 ≤ n := by omega
    push_cast [this]
    ring
  have hne : ((n : ℚ) - 1) ≠ 0 := by
    have : (2 : ℚ) ≤ (n : ℚ) := by exact_mod_cast hn
    linarith
  rw [hc, div_self hne]
  norm_num

lemma mkTimeAxis_chain (s e : ℚ) (n : ℕ) (h : s ≤ e) :
    List.Chain' (· ≤ ·) (mkTimeAxis s e n) := by
  rw [List.chain'_iff_get]
  intro i hi
  rw [mkTimeAxis_length] at hi
  have h2 : 2 ≤ n := by omega
  have hc : (0 : ℚ) < (n : ℚ) - 1 := by
    have : (2 : ℚ) ≤ (n : ℚ) := by exact_mod_cast h2
    linarith
  simp only [List.get_eq_getElem, mkTimeAxis_getElem]
  apply add_le_add_left
  apply mul_le_mul_of_nonneg_left _ (sub_nonneg.mpr h)
  rw [div_le_div_iff_of_pos_right hc]
  push_cast
  linarith

lemma parseValues_empty : parseValues "" = none := by decide

/-- Forward direction: an entry meeting all the acceptance conditions
produces exactly the record built at lines 54-78, with no diagnostics. -/
lemma processEntry_accept (sm : List (String × Style)) (n : String)
    (kvs : List (String × Json)) (key : String) (sty : Style)
    (sdt edt : PyDateTime) (raw : String) (vals : List ℚ)
    (hm : findMatch n sm = some (key, sty)) (hk : key ≠ "")
    (hs : fromJsonTime ((Json.lookup kvs "startTime").getD .null) = some sdt)
    (he : fromJsonTime ((Json.lookup kvs "endTime").getD .null) = some edt)
    (hraw : (Json.lookup kvs "values").getD (.str "[]") = .str raw)
    (hv : parseValues (stripBrackets raw) = some vals)
    (hn : 2 ≤ vals.length)
    (hw : sdt.aware = edt.aware) :
    processEntry sm n (.obj kvs) =
      .ok (some (buildRecord n sty kvs sdt edt vals), []) := by
  have hne : stripBrackets raw ≠ "" := by
    intro h0
    rw [h0, parseValues_empty] at hv
    exact Option.noConfusion hv
  simp only [processEntry, hm, hs, he, hraw, hv]
  rw [if_neg hk, if_neg hne, if_neg (Nat.not_lt.mpr hn), if_neg (by simp [hw])]

/-- Inversion: a produced record can only come from the lines 54-78 branch,
with every acceptance condition satisfied along the way. -/
lemma processEntry_inv {sm : List (String × Style)} {n : String} {info : Json}
    {r : MetricRecord} {lg : List LogEvent}
    (h : processEntry sm n info = .ok (some r, lg)) :
    ∃ key sty kvs sdt edt raw vals,
      info = .obj kvs ∧
      findMatch n sm = some (key, sty) ∧ key ≠ "" ∧
      fromJsonTime ((Json.lookup kvs "startTime").getD .null) = some sdt ∧
      fromJsonTime ((Json.lookup kvs "endTime").getD .null) = some edt ∧
      (Json.lookup kvs "values").getD (.str "[]") = .str raw ∧
      parseValues (stripBrackets raw) = some vals ∧
      2 ≤ vals.length ∧ sdt.aware = edt.aware ∧ lg = [] ∧
      r = buildRecord n sty kvs sdt edt vals := by
  unfold processEntry at h
  split at h
  · simp at h
  next key sty hfind =>
    split at h
    · simp at h
    next hk =>
      split at h
      next kvs =>
        split at h
        next sdt edt hs he =>
          split at h
          next raw hraw =>
            split at h
            · simp at h
            next hne =>
              split at h
              · simp at h
              next vals hv =>
                split at h
                · simp at h
                next hlen =>
                  split at h
                  · simp at h
                  next hw =>
                    simp only [Except.ok.injEq, Prod.mk.injEq] at h
                    exact ⟨key, sty, kvs, sdt, edt, raw, vals, rfl, hfind, hk,
                      hs, he, hraw, hv, Nat.le_of_not_lt hlen,
                      not_ne_iff.mp hw, h.2.symm, (Option.some.inj h.1).symm⟩
          · simp at h
        · simp at h
      · simp at h

/-- Any record in the loop's output comes from some entry of the document. -/
lemma gatherLoop_mem {sm : List (String × Style)} :
    ∀ {es : List (String × Json)} {rs : List MetricRecord}
      {lgs : List LogEvent}, gatherLoop sm es = .ok (rs, lgs) →
      ∀ r ∈ rs, ∃ n info lg, (n, info) ∈ es ∧
        processEntry sm n info = .ok (some r, lg) := by
  intro es
  induction es with
  | nil =>
    intro rs lgs h r hr
    simp only [gatherLoop, Except.ok.injEq, Prod.mk.injEq] at h
    rw [← h.1] at hr
    simp at hr
  | cons p tl ih =>
    intro rs lgs h r hr
    obtain ⟨n, info⟩ := p
    simp only [gatherLoop] at h
    cases hpe : processEntry sm n info with
    | error e => rw [hpe] at h; simp at h
    | ok o =>
      obtain ⟨ro, lg⟩ := o
      rw [hpe] at h
      cases hgl : gatherLoop sm tl with
      | error e => rw [hgl] at h; simp at h
      | ok o2 =>
        obtain ⟨rs2, lgs2⟩ := o2
        rw [hgl] at h
        simp only [Except.ok.injEq, Prod.mk.injEq] at h
        rw [← h.1] at hr
        rcases List.mem_append.mp hr with hmem | hmem
        · cases ro with
          | none => simp at hmem
          | some r0 =>
            simp only [Option.toList_some, List.mem_singleton] at hmem
            exact ⟨n, info, lg, List.mem_cons_self _ _, hmem ▸ hpe⟩
        · obtain ⟨n2, i2, lg2, hmem2, hpe2⟩ := ih hgl r hmem
          exact ⟨n2, i2, lg2, List.mem_cons_of_mem _ hmem2, hpe2⟩

/-- Any record in `gather_metrics`' output comes from some entry of the
document's item list. -/
lemma gather_metrics_mem {doc : Json} {sm : List (String × Style)}
    {rs : List MetricRecord} {lgs : List LogEvent}
    (h : gather_metrics doc sm = .ok (rs, lgs)) :
    ∀ r ∈ rs, ∃ n info lg,
      processEntry sm n info = .ok (some r, lg) := by
  intro r hr
  unfold gather_metrics at h
  cases hit : itemsOf doc with
  | error e => rw [hit] at h; simp at h
  | ok es =>
    rw [hit] at h
    obtain ⟨n, info, lg, _, hpe⟩ := gatherLoop_mem h r hr
    exact ⟨n, info, lg, hpe⟩

/-- If no Style Map key occurs in the lowercased name, the match loop finds
nothing. -/
lemma findMatch_none {sm : List (String × Style)} {n : String}
    (h : ∀ e ∈ sm, strIn e.1 (pyLower n) = false) :
    findMatch n sm = none := by
  unfold findMatch
  rw [List.find?_eq_none]
  intro x hx
  simp [h x hx]

/-- An unmatched entry is skipped silently. -/
lemma processEntry_nomatch {sm : List (String × Style)} {n : String}
    {info : Json} (h : findMatch n sm = none) :
    processEntry sm n info = .ok (none, []) := by
  unfold processEntry
  rw [h]

/-- In the startup Style Map, `roundtriptime` is the first key, so a name
containing it always matches exactly that key. -/
lemma startup_rtt_of_strIn {n : String}
    (h : strIn "roundtriptime" (pyLower n) = true) :
    findMatch n startupStyleMap =
      some ("roundtriptime", ⟨"Round Trip Time", "#f39c12", "ms"⟩) := by
  unfold findMatch startupStyleMap
  rw [List.find?_cons_of_pos _ (by simpa using h)]

/-- Conversely, a startup-map match on the `roundtriptime` key means the
lowercased name contains `roundtriptime`. -/
lemma startup_rtt_key {n : String} {key : String} {sty : Style}
    (h : findMatch n startupStyleMap = some (key, sty))
    (hk : key = "roundtriptime") :
    strIn "roundtriptime" (pyLower n) = true := by
  have := List.find?_some (by unfold findMatch at h; exact h)
  simpa [hk] using this

/-- A non-fatally skipped entry just prepends its diagnostics to the rest of
the extraction. -/
lemma gatherLoop_cons_skip {sm : List (String × Style)} {n : String}
    {info : Json} {lgE : List LogEvent} (rest : List (String × Json))
    (h : processEntry sm n info = .ok (none, lgE)) :
    gatherLoop sm ((n, info) :: rest) =
      (gatherLoop sm rest).map (fun out => (out.1, lgE ++ out.2)) := by
  simp only [gatherLoop, h]
  cases gatherLoop sm rest with
  | error e => rfl
  | ok o => cases o; rfl

/-- A benign entry never makes the loop body raise. -/
lemma processEntry_total {sm : List (String × Style)} {n : String}
    {info : Json} (hb : benignEntry sm n info) :
    ∃ o, processEntry sm n info = .ok o := by
  cases hres : processEntry sm n info with
  | ok o => exact ⟨o, rfl⟩
  | error e =>
    exfalso
    unfold processEntry at hres
    split at hres
    · simp at hres
    next key sty hfind =>
      split at hres
      · simp at hres
      next hk =>
        obtain ⟨kvs, hinfo, ⟨raw, hraw⟩, haw⟩ := hb key sty hfind hk
        split at hres
        next kvs2 =>
          cases hinfo
          split at hres
          next sdt edt hs he =>
            split at hres
            next raw2 hraw2 =>
              split at hres
              · simp at hres
              · split at hres
                · simp at hres
                · split at hres
                  · simp at hres
                  · split at hres
                    next hw => exact hw (haw sdt edt hs he)
                    next => simp at hres
            next hnotstr =>
              rw [hraw] at hnotstr
              exact hnotstr raw rfl
          next => simp at hres
        next hnotobj =>
          exact hnotobj kvs hinfo

/-- A document of benign entries is processed to completion. -/
lemma gatherLoop_total {sm : List (String × Style)} :
    ∀ {es : List (String × Json)}, (∀ p ∈ es, benignEntry sm p.1 p.2) →
      ∃ out, gatherLoop sm es = .ok out := by
  intro es
  induction es with
  | nil => exact fun _ => ⟨_, rfl⟩
  | cons p tl ih =>
    intro hb
    obtain ⟨n, info⟩ := p
    obtain ⟨⟨ro, lg⟩, hpe⟩ := processEntry_total (hb (n, info) (by simp))
    obtain ⟨⟨rs, lgs⟩, hgl⟩ := ih (fun q hq => hb q (List.mem_cons_of_mem _ hq))
    refine ⟨(ro.toList ++ rs, lg ++ lgs), ?_⟩
    simp only [gatherLoop, hpe, hgl]

/-! ### Claims -/

/-- C1: for every source metric entry that `gather_metrics` accepts (matched
name, parsed `startTime` and `endTime`, parsed value list), the reconstructed
`time_axis` has exactly as many elements as there are values, element `i`
equals `start + (end - start) * i / (N - 1)`, and the endpoints are exactly
`start` and `end`. -/
theorem C1_time_axis_interpolation
    (sm : List (String × Style)) (n : String) (kvs : List (String × Json))
    (r : MetricRecord) (lg : List LogEvent) (sdt edt : PyDateTime)
    (raw : String) (vals : List ℚ)
    (hok : processEntry sm n (.obj kvs) = .ok (some r, lg))
    (hs : fromJsonTime ((Json.lookup kvs "startTime").getD .null) = some sdt)
    (he : fromJsonTime ((Json.lookup kvs "endTime").getD .null) = some edt)
    (hraw : (Json.lookup kvs "values").getD (.str "[]") = .str raw)
    (hv : parseValues (stripBrackets raw) = some vals) :
    r.time_axis.length = vals.length ∧
    (∀ i, (hi : i < r.time_axis.length) →
      r.time_axis[i] = sdt.secs + (edt.secs - sdt.secs) *
        ((i : ℚ) / ((vals.length : ℚ) - 1))) ∧
    r.time_axis.head? = some sdt.secs ∧
    r.time_axis.getLast? = some edt.secs := by
  obtain ⟨key, sty, kvs', sdt', edt', raw', vals', hinfo, hfind, hk, hs', he',
    hraw', hv', hlen, hw, hlg, hr⟩ := processEntry_inv hok
  injection hinfo with hkk
  subst hkk
  rw [hs] at hs'
  injection hs' with hsdt
  subst hsdt
  rw [he] at he'
  injection he' with hedt
  subst hedt
  rw [hraw] at hraw'
  injection hraw' with hrr
  subst hrr
  rw [hv] at hv'
  injection hv' with hvv
  subst hvv
  subst hr
  simp only [buildRecord]
  refine ⟨mkTimeAxis_length _ _ _, ?_, ?_, ?_⟩
  · intro i hi
    exact mkTimeAxis_getElem _ _ _ _ hi
  · exact mkTimeAxis_head _ _ _ (by omega)
  · exact mkTimeAxis_last _ _ _ hlen

/-- Witness for C1 at the round-trip-time example entry. -/
theorem C1_witness :
    processEntry startupStyleMap "roundTripTime_stat" (.obj kvsRTT) =
      .ok (some recRTT, []) ∧
    recRTT.time_axis.head? = some (63866102400 : ℚ) ∧
    recRTT.time_axis.getLast? = some (63866102410 : ℚ) ∧
    recRTT.time_axis.length = 3 := by
  have hok : processEntry startupStyleMap "roundTripTime_stat" (.obj kvsRTT) =
      .ok (some recRTT, []) := by with_unfolding_all rfl
  have h := C1_time_axis_interpolation startupStyleMap "roundTripTime_stat"
    kvsRTT recRTT [] ⟨63866102400000000, true⟩ ⟨63866102410000000, true⟩
    "[10, 20, 30]" [10, 20, 30] hok (by with_unfolding_all rfl)
    (by with_unfolding_all rfl) (by with_unfolding_all rfl)
    (by with_unfolding_all rfl)
  have hsecs : (PyDateTime.mk 63866102400000000 true).secs = 63866102400 := by
    with_unfolding_all rfl
  have hsecs2 : (PyDateTime.mk 63866102410000000 true).secs = 63866102410 := by
    with_unfolding_all rfl
  refine ⟨hok, ?_, ?_, ?_⟩
  · rw [h.2.2.1, hsecs]
  · rw [h.2.2.2, hsecs2]
  · rw [h.1]
    rfl

/-- C2: every Metric Record satisfies `len(time_axis) == len(values) == N`
with `N ≥ 2`, and an entry whose parsed value array has fewer than 2 entries
(e.g. `values = "[1.0]"`) produces no record. -/
theorem C2_record_lengths :
    (∀ (doc : Json) (sm : List (String × Style)) rs lgs,
        gather_metrics doc sm = .ok (rs, lgs) →
        ∀ r ∈ rs, r.time_axis.length = r.values.length ∧
          2 ≤ r.values.length) ∧
    gather_metrics docSingle startupStyleMap = .ok ([], []) := by
  constructor
  · intro doc sm rs lgs h r hr
    obtain ⟨n, info, lg, hpe⟩ := gather_metrics_mem h r hr
    obtain ⟨key, sty, kvs, sdt, edt, raw, vals, _, _, _, _, _, _, _, hlen, _,
      _, hr'⟩ := processEntry_inv hpe
    subst hr'
    simp only [buildRecord]
    exact ⟨mkTimeAxis_length _ _ _, hlen⟩
  · with_unfolding_all rfl

/-- Witness for C2 at a concrete accepted record. -/
theorem C2_witness :
    gather_metrics docRTT startupStyleMap = .ok ([recRTT], []) ∧
    recRTT.time_axis.length = recRTT.values.length ∧
    2 ≤ recRTT.values.length := by
  have hg : gather_metrics docRTT startupStyleMap = .ok ([recRTT], []) := by
    with_unfolding_all rfl
  exact ⟨hg, C2_record_lengths.1 docRTT startupStyleMap [recRTT] [] hg recRTT
    (by simp)⟩

/-- C3: every produced record's `average` is the unweighted arithmetic mean of
its `values`. -/
theorem C3_average_is_mean
    (doc : Json) (sm : List (String × Style)) (rs : List MetricRecord)
    (lgs : List LogEvent) (h : gather_metrics doc sm = .ok (rs, lgs)) :
    ∀ r ∈ rs, r.average = r.values.sum / (r.values.length : ℚ) := by
  intro r hr
  obtain ⟨n, info, lg, hpe⟩ := gather_metrics_mem h r hr
  obtain ⟨key, sty, kvs, sdt, edt, raw, vals, _, _, _, _, _, _, _, _, _, _,
    hr'⟩ := processEntry_inv hpe
  subst hr'
  simp only [buildRecord]

/-- Witness for C3 at a concrete accepted record. -/
theorem C3_witness :
    gather_metrics docRTT startupStyleMap = .ok ([recRTT], []) ∧
    recRTT.average = recRTT.values.sum / (recRTT.values.length : ℚ) := by
  have hg : gather_metrics docRTT startupStyleMap = .ok ([recRTT], []) := by
    with_unfolding_all rfl
  exact ⟨hg, C3_average_is_mean docRTT startupStyleMap [recRTT] [] hg recRTT
    (by simp)⟩

/-- C4 (counterexample): on the spec's worked-example document the name
`"RTT_stat"` contains no Style Map key, so the code returns no record at
all — not the single record the claim describes. -/
theorem C4_counterexample :
    gather_metrics docC4 startupStyleMap = .ok ([], []) := by
  with_unfolding_all rfl

/-- C4 (amended): with a metric name that contains the `roundtriptime` key
(`"roundTripTime_stat"`), the document yields exactly one record with title
`"Round Trip Time (candidate-pair)"`, values `[10, 20, 30]`, average `20`,
and timestamps at 0, 5 and 10 seconds after the parsed start. -/
theorem C4_amended_example :
    gather_metrics docRTT startupStyleMap = .ok ([recRTT], []) ∧
    recRTT.title = "Round Trip Time (candidate-pair)" ∧
    recRTT.values = [10, 20, 30] ∧
    recRTT.average = 20 ∧
    fromJsonTime (.str "2024-01-01T00:00:00Z") =
      some ⟨63866102400000000, true⟩ ∧
    (PyDateTime.mk 63866102400000000 true).secs = 63866102400 ∧
    recRTT.time_axis = [63866102400, 63866102400 + 5, 63866102400 + 10] := by
  exact ⟨by with_unfolding_all rfl, rfl, rfl, rfl, by with_unfolding_all rfl,
    by with_unfolding_all rfl, by with_unfolding_all rfl⟩

/-- C5: a produced record's title is the matched Style Entry's title, except
that when the match key is `roundtriptime` and the entry carries a non-empty
(string) `statsType`, the `statsType` is appended in parentheses. -/
theorem C5_title_suffix
    (n : String) (kvs : List (String × Json)) (r : MetricRecord)
    (lg : List LogEvent) (key : String) (sty : Style)
    (hok : processEntry startupStyleMap n (.obj kvs) = .ok (some r, lg))
    (hfind : findMatch n startupStyleMap = some (key, sty))
    (hst : ∀ st, Json.lookup kvs "statsType" = some st →
      st = .null ∨ ∃ s, st = .str s) :
    r.title = match Json.lookup kvs "statsType" with
      | some (.str s) =>
        if key = "roundtriptime" ∧ s ≠ "" then
          sty.title ++ " (" ++ s ++ ")"
        else sty.title
      | _ => sty.title := by
  obtain ⟨key', sty', kvs', sdt, edt, raw, vals, hinfo, hfind', hk, hs, he,
    hraw, hv, hlen, hw, hlg, hr⟩ := processEntry_inv hok
  injection hinfo with hkk
  subst hkk
  rw [hfind] at hfind'
  injection hfind' with hpair
  obtain ⟨hkey, hsty⟩ := Prod.mk.injEq .. ▸ And.intro (congrArg Prod.fst hpair)
    (congrArg Prod.snd hpair)
  subst hr
  simp only [buildRecord, mkTitle]
  by_cases hrtt : strIn "roundtriptime" (pyLower n) = true
  · have hmk := startup_rtt_of_strIn hrtt
    rw [hfind] at hmk
    injection hmk with hmk
    have hkeyr : key = "roundtriptime" := congrArg Prod.fst hmk
    simp only [hrtt, if_true]
    cases hlk : Json.lookup kvs "statsType" with
    | none => simp [jsonTruthy]
    | some st =>
      rcases hst st hlk with hnull | ⟨s, hstr⟩
      · subst hnull
        simp [jsonTruthy]
      · subst hstr
        by_cases hse : s = ""
        · subst hse
          simp [jsonTruthy]
        · simp [jsonTruthy, hse, hkeyr, pyStr]
  · have hkey' : ¬key = "roundtriptime" :=
      fun hkeq => hrtt (startup_rtt_key hfind hkeq)
    simp only [hrtt]
    cases hlk : Json.lookup kvs "statsType" with
    | none => simp [jsonTruthy]
    | some st =>
      rcases hst st hlk with hnull | ⟨s, hstr⟩
      · subst hnull
        simp
      · subst hstr
        simp [hkey']

/-- Witness for C5 at the round-trip-time example entry. -/
theorem C5_witness :
    processEntry startupStyleMap "roundTripTime_stat" (.obj kvsRTT) =
      .ok (some recRTT, []) ∧
    recRTT.title = "Round Trip Time" ++ " (" ++ "candidate-pair" ++ ")" := by
  have hok : processEntry startupStyleMap "roundTripTime_stat" (.obj kvsRTT) =
      .ok (some recRTT, []) := by with_unfolding_all rfl
  have h := C5_title_suffix "roundTripTime_stat" kvsRTT recRTT []
    "roundtriptime" ⟨"Round Trip Time", "#f39c12", "ms"⟩ hok
    (by with_unfolding_all rfl)
    (by
      intro st hstl
      refine Or.inr ⟨"candidate-pair", ?_⟩
      have : Json.lookup kvsRTT "statsType" = some (.str "candidate-pair") :=
        by with_unfolding_all rfl
      rw [this] at hstl
      injection hstl with hstl
      exact hstl.symm)
  refine ⟨hok, ?_⟩
  rw [h]
  have : Json.lookup kvsRTT "statsType" = some (.str "candidate-pair") := by
    with_unfolding_all rfl
  rw [this]
  simp

/-- C6 (counterexample): a matched entry whose `endTime` precedes its
`startTime` is accepted unchecked and yields a strictly decreasing
`time_axis`. -/
theorem C6_counterexample :
    gather_metrics docRev startupStyleMap = .ok ([recRev], []) ∧
    ¬ List.Chain' (· ≤ ·) recRev.time_axis := by
  refine ⟨by with_unfolding_all rfl, ?_⟩
  intro hc
  simp only [recRev, List.chain'_cons, List.chain'_singleton, and_true] at hc
  norm_num at hc

/-- C6 (amended): the `time_axis` of a produced record is non-decreasing
provided the entry's parsed end time is not before its parsed start time. -/
theorem C6_amended
    (sm : List (String × Style)) (n : String) (kvs : List (String × Json))
    (r : MetricRecord) (lg : List LogEvent) (sdt edt : PyDateTime)
    (hok : processEntry sm n (.obj kvs) = .ok (some r, lg))
    (hs : fromJsonTime ((Json.lookup kvs "startTime").getD .null) = some sdt)
    (he : fromJsonTime ((Json.lookup kvs "endTime").getD .null) = some edt)
    (hle : sdt.secs ≤ edt.secs) :
    List.Chain' (· ≤ ·) r.time_axis := by
  obtain ⟨key, sty, kvs', sdt', edt', raw, vals, hinfo, hfind, hk, hs', he',
    hraw, hv, hlen, hw, hlg, hr⟩ := processEntry_inv hok
  injection hinfo with hkk
  subst hkk
  rw [hs] at hs'
  injection hs' with hsdt
  subst hsdt
  rw [he] at he'
  injection he' with hedt
  subst hedt
  subst hr
  simp only [buildRecord]
  exact mkTimeAxis_chain _ _ _ hle

/-- Witness for C6 (amended) at a forward-interval entry. -/
theorem C6_witness :
    processEntry startupStyleMap "roundTripTime_stat" (.obj kvsRTT) =
      .ok (some recRTT, []) ∧
    List.Chain' (· ≤ ·) recRTT.time_axis := by
  have hok : processEntry startupStyleMap "roundTripTime_stat" (.obj kvsRTT) =
      .ok (some recRTT, []) := by with_unfolding_all rfl
  have hle : (PyDateTime.mk 63866102400000000 true).secs ≤
      (PyDateTime.mk 63866102410000000 true).secs := by
    rw [show (PyDateTime.mk 63866102400000000 true).secs = 63866102400 from
      by with_unfolding_all rfl]
    rw [show (PyDateTime.mk 63866102410000000 true).secs = 63866102410 from
      by with_unfolding_all rfl]
    norm_num
  exact ⟨hok, C6_amended startupStyleMap "roundTripTime_stat" kvsRTT recRTT []
    ⟨63866102400000000, true⟩ ⟨63866102410000000, true⟩ hok
    (by with_unfolding_all rfl) (by with_unfolding_all rfl) hle⟩

/-- A matched entry whose timestamp conversion fails (on either field) is
skipped with a time-parse diagnostic. -/
lemma processEntry_badtime {sm : List (String × Style)} {n : String}
    {kvs : List (String × Json)} {key : String} {sty : Style}
    (hfind : findMatch n sm = some (key, sty)) (hk : key ≠ "")
    (hbad : fromJsonTime ((Json.lookup kvs "startTime").getD .null) = none ∨
            fromJsonTime ((Json.lookup kvs "endTime").getD .null) = none) :
    processEntry sm n (.obj kvs) = .ok (none, [.timeParseError n]) := by
  simp only [processEntry, hfind]
  rw [if_neg hk]
  rcases hbad with hb | hb
  · rw [hb]
  · rw [hb]
    cases fromJsonTime ((Json.lookup kvs "startTime").getD .null) <;> rfl

/-- C7 (counterexample): the document `{"jitter_a": 5}` parses as JSON, but
`gather_metrics` raises an uncaught `AttributeError` on it (line 33's
`metric_info.get` on a non-dict) instead of completing. -/
theorem C7_counterexample :
    gather_metrics docBadInfo startupStyleMap = .error .attributeError := by
  with_unfolding_all rfl

/-- C7 (amended): for documents whose matched entries have object payloads
with string `values` fields and awareness-consistent timestamps, every
per-entry problem (malformed values, unparseable timestamp, insufficient
samples) only drops that entry and extraction completes; concretely, a
malformed `"[1,2,oops]"` entry is dropped with a diagnostic while the
remaining valid entry is still extracted. -/
theorem C7_amended_nonfatal :
    (∀ (doc : Json) (sm : List (String × Style)) es,
        itemsOf doc = .ok es →
        (∀ p ∈ es, benignEntry sm p.1 p.2) →
        ∃ out, gather_metrics doc sm = .ok out) ∧
    gather_metrics docMixed startupStyleMap =
      .ok ([recGood], [.valueParseError "jitter_a"]) := by
  constructor
  · intro doc sm es hit hb
    obtain ⟨out, hout⟩ := gatherLoop_total hb
    refine ⟨out, ?_⟩
    unfold gather_metrics
    rw [hit]
    exact hout
  · with_unfolding_all rfl

/-- Witness for C7 (amended) on the mixed document. -/
theorem C7_witness :
    ∃ out, gather_metrics docMixed startupStyleMap = .ok out := by
  refine C7_amended_nonfatal.1 docMixed startupStyleMap
    [("jitter_a", .obj kvsBadVals), ("bitrate_b", .obj kvsGood)]
    (by with_unfolding_all rfl) ?_
  intro p hp
  simp only [List.mem_cons, List.not_mem_nil, or_false] at hp
  rcases hp with hp | hp
  · subst hp
    intro key sty hfind hk
    refine ⟨kvsBadVals, rfl, ⟨"[1,2,oops]", by with_unfolding_all rfl⟩, ?_⟩
    intro sdt edt hs he
    rw [show fromJsonTime ((Json.lookup kvsBadVals "startTime").getD .null) =
      some ⟨63866102400000000, true⟩ from by with_unfolding_all rfl] at hs
    rw [show fromJsonTime ((Json.lookup kvsBadVals "endTime").getD .null) =
      some ⟨63866102410000000, true⟩ from by with_unfolding_all rfl] at he
    injection hs with hs
    injection he with he
    rw [← hs, ← he]
  · subst hp
    intro key sty hfind hk
    refine ⟨kvsGood, rfl, ⟨"[5, 7]", by with_unfolding_all rfl⟩, ?_⟩
    intro sdt edt hs he
    rw [show fromJsonTime ((Json.lookup kvsGood "startTime").getD .null) =
      some ⟨63866102400000000, true⟩ from by with_unfolding_all rfl] at hs
    rw [show fromJsonTime ((Json.lookup kvsGood "endTime").getD .null) =
      some ⟨63866102402000000, true⟩ from by with_unfolding_all rfl] at he
    injection hs with hs
    injection he with he
    rw [← hs, ← he]

/-- C8 (counterexample): the entry with `values = "[]"` is excluded from the
output, but silently — the produced log is empty, so no diagnostic is emitted
for it (unlike malformed payloads, which are logged). -/
theorem C8_counterexample :
    gather_metrics docEmptyVals startupStyleMap = .ok ([], []) := by
  with_unfolding_all rfl

/-- C8 (amended): a matched entry with parsed timestamps whose `values`
string strips to the empty payload is skipped without producing a record and
without logging any diagnostic. -/
theorem C8_amended_silent_skip
    (sm : List (String × Style)) (n : String) (kvs : List (String × Json))
    (key : String) (sty : Style) (sdt edt : PyDateTime) (raw : String)
    (hfind : findMatch n sm = some (key, sty)) (hk : key ≠ "")
    (hs : fromJsonTime ((Json.lookup kvs "startTime").getD .null) = some sdt)
    (he : fromJsonTime ((Json.lookup kvs "endTime").getD .null) = some edt)
    (hraw : (Json.lookup kvs "values").getD (.str "[]") = .str raw)
    (hempty : stripBrackets raw = "") :
    processEntry sm n (.obj kvs) = .ok (none, []) := by
  simp only [processEntry, hfind, hs, he, hraw]
  rw [if_neg hk, if_pos hempty]

/-- Witness for C8 (amended) at the empty-values entry. -/
theorem C8_witness :
    processEntry startupStyleMap "jitter_e" (.obj kvsEmptyVals) =
      .ok (none, []) := by
  exact C8_amended_silent_skip startupStyleMap "jitter_e" kvsEmptyVals
    "jitter" ⟨"Jitter", "#c0392b", "ms"⟩ ⟨63866102400000000, true⟩
    ⟨63866102410000000, true⟩ "[]" (by with_unfolding_all rfl) (by simp)
    (by with_unfolding_all rfl) (by with_unfolding_all rfl)
    (by with_unfolding_all rfl) (by with_unfolding_all rfl)

/-- C9: an entry appears in the output only if some Style Map key is a
substring of its lowercased name — an entry with no such key yields nothing —
while `"FramesPerSecond_in"` does contain the key `framespersecond` after
lowercasing. -/
theorem C9_substring_matching :
    (∀ (sm : List (String × Style)) (n : String) (info : Json),
        (∀ e ∈ sm, strIn e.1 (pyLower n) = false) →
        processEntry sm n info = .ok (none, [])) ∧
    strIn "framespersecond" (pyLower "FramesPerSecond_in") = true := by
  constructor
  · intro sm n info h
    exact processEntry_nomatch (findMatch_none h)
  · with_unfolding_all rfl

/-- Witness for C9 at a name matching no key. -/
theorem C9_witness :
    processEntry startupStyleMap "no_style_here" .null = .ok (none, []) := by
  refine C9_substring_matching.1 startupStyleMap "no_style_here" .null ?_
  intro e he
  simp only [startupStyleMap, List.mem_cons, List.not_mem_nil, or_false] at he
  rcases he with h | h | h | h | h | h | h <;>
    (subst h; with_unfolding_all rfl)

/-- C10: a matched entry missing its `startTime` or `endTime` field entirely
does not abort extraction: the failure is caught by the timestamp-parse
handler, the entry is skipped with a logged diagnostic, and the loop
continues with the remaining entries. -/
theorem C10_missing_time_field
    (sm : List (String × Style)) (n : String) (kvs : List (String × Json))
    (key : String) (sty : Style)
    (hfind : findMatch n sm = some (key, sty)) (hk : key ≠ "")
    (hmiss : Json.lookup kvs "startTime" = none ∨
             Json.lookup kvs "endTime" = none) :
    processEntry sm n (.obj kvs) = .ok (none, [.timeParseError n]) ∧
    ∀ rest, gatherLoop sm ((n, .obj kvs) :: rest) =
      (gatherLoop sm rest).map
        (fun out => (out.1, .timeParseError n :: out.2)) := by
  have hpe : processEntry sm n (.obj kvs) =
      .ok (none, [.timeParseError n]) := by
    refine processEntry_badtime hfind hk ?_
    rcases hmiss with hm | hm
    · exact Or.inl (by rw [hm]; rfl)
    · exact Or.inr (by rw [hm]; rfl)
  exact ⟨hpe, fun rest => gatherLoop_cons_skip rest hpe⟩

/-- Witness for C10: an entry with no `startTime` is logged and skipped while
a later valid entry is still extracted. -/
theorem C10_witness :
    processEntry startupStyleMap "jitter_x" (.obj kvsNoStart) =
      .ok (none, [.timeParseError "jitter_x"]) ∧
    gatherLoop startupStyleMap
      [("jitter_x", .obj kvsNoStart), ("bitrate_b", .obj kvsGood)] =
      .ok ([recGood], [.timeParseError "jitter_x"]) := by
  have h := C10_missing_time_field startupStyleMap "jitter_x" kvsNoStart
    "jitter" ⟨"Jitter", "#c0392b", "ms"⟩ (by with_unfolding_all rfl)
    (by simp) (Or.inl (by with_unfolding_all rfl))
  refine ⟨h.1, ?_⟩
  rw [h.2 [("bitrate_b", .obj kvsGood)]]
  rw [show gatherLoop startupStyleMap [("bitrate_b", .obj kvsGood)] =
    .ok ([recGood], []) from by with_unfolding_all rfl]
  rfl

end WebRTC
